import Mathlib

/-!
Verification of the oidc-proxy-workaround reverse proxy (b2bi-oidc-proxy.go).

The file embeds, as executable Lean definitions, the parts of the program the
claims are about:

* a model of Go `encoding/json` as used by the program: a JSON value AST, a
  character-level JSON parser (mirroring Go's grammar: whitespace, strings
  with escapes and surrogate pairs, numbers with the no-leading-zero rule,
  objects, arrays, literals), Go's `json.Marshal` serialization of the
  `TokenResponse` struct (including Go's string escaping with HTML escaping of
  the characters lt, gt and amp, and `\u00XX` escapes for control characters),
  and Go's `json.Unmarshal` field decoding into `TokenResponse` (member
  names matched to fields case-insensitively as `encoding/json` does,
  unmatched fields skipped, `null` leaves a field untouched, type
  mismatches and integers outside the signed 64 bit range are errors,
  later duplicate members overwrite earlier ones);
* the body transformer `accessTokenToIdTokenResponseBodyModifier`;
* the generalized handler `proxyingPostHandlerWithResponseModifier` and the
  original `postTokenHandler`, as pure functions from the inbound request and
  an environment (outcome of `http.NewRequest`, `client.Do` and the backend
  body read) to the outbound backend request (if any) and the response
  finally written, with `net/http` writer semantics: a `Write` without a
  prior `WriteHeader` sends status 200, and `http.Error` sets the status, a
  `text/plain` content type, and the message plus a newline as the body.
-/

set_option maxHeartbeats 1000000

namespace OidcProxy

/-- JSON value AST.  Non-integer number literals (those containing a
fraction or exponent part) are collapsed into `numNonInt`: the program never
observes their value (decoding any `TokenResponse` field from one is an
error, and unknown fields are skipped). -/
inductive Json where
  | null : Json
  | bool (b : Bool) : Json
  | num (n : Int) : Json
  | numNonInt : Json
  | str (s : String) : Json
  | arr (elems : List Json) : Json
  | obj (members : List (String × Json)) : Json

/-- The struct `TokenResponse` from b2bi-oidc-proxy.go (Go field types:
four strings and one `int`; the JSON tags are `access_token`,
`refresh_token`, `token_type`, `expires_in`, `id_token`). -/
structure TokenResponse where
  accessToken : String
  refreshToken : String
  tokenType : String
  expiresIn : Int
  idToken : String

/-- The opening curly brace character. -/
def lbrace : Char := Char.ofNat 123

/-- The closing curly brace character. -/
def rbrace : Char := Char.ofNat 125

/-- JSON insignificant whitespace, as in Go's scanner. -/
def isWs (c : Char) : Bool := c = ' ' || c = '\t' || c = '\n' || c = '\r'

/-- Drop leading JSON whitespace. -/
def skipWs (cs : List Char) : List Char := List.dropWhile isWs cs

/-- ASCII decimal digit test. -/
def isDigitCh (c : Char) : Bool := 48 ≤ c.toNat && c.toNat ≤ 57

/-- Lower-case hexadecimal digit for a value below 16 (Go's hex table). -/
def hexDigit (n : Nat) : Char := Char.ofNat (if n < 10 then 48 + n else 87 + n)

/-- Value of a hexadecimal digit character (either case), as accepted by
Go's `getu4`. -/
def hexDigitVal (c : Char) : Option Nat :=
  if 48 ≤ c.toNat ∧ c.toNat ≤ 57 then some (c.toNat - 48)
  else if 97 ≤ c.toNat ∧ c.toNat ≤ 102 then some (c.toNat - 87)
  else if 65 ≤ c.toNat ∧ c.toNat ≤ 70 then some (c.toNat - 55)
  else none

/-- Go `encoding/json` string encoding of one character (with the default
HTML escaping that `json.Marshal` applies). -/
def encChar (c : Char) : List Char :=
  if c = '"' then ['\\', '"']
  else if c = '\\' then ['\\', '\\']
  else if c = '\n' then ['\\', 'n']
  else if c = '\r' then ['\\', 'r']
  else if c = '\t' then ['\\', 't']
  else if c.toNat < 32 then ['\\', 'u', '0', '0', hexDigit (c.toNat / 16), hexDigit (c.toNat % 16)]
  else if c = '<' then ['\\', 'u', '0', '0', '3', 'c']
  else if c = '>' then ['\\', 'u', '0', '0', '3', 'e']
  else if c = '&' then ['\\', 'u', '0', '0', '2', '6']
  else if c.toNat = 8232 then ['\\', 'u', '2', '0', '2', '8']
  else if c.toNat = 8233 then ['\\', 'u', '2', '0', '2', '9']
  else [c]

/-- Go string encoding of a character list. -/
def encList : List Char → List Char
  | [] => []
  | c :: cs => encChar c ++ encList cs

/-- A JSON-quoted Go string: quote, escaped content, quote. -/
def qstr (s : String) : List Char := '"' :: (encList s.data ++ ['"'])

/-- Decimal digits of a natural number, most significant first, empty for 0;
fuel-driven so that it reduces definitionally. -/
def natDigitsAux : Nat → Nat → List Char → List Char
  | 0, _, acc => acc
  | fuel + 1, n, acc =>
    if n = 0 then acc else natDigitsAux fuel (n / 10) (Char.ofNat (48 + n % 10) :: acc)

/-- Decimal representation of a natural number. -/
def natDigits (n : Nat) : List Char := if n = 0 then ['0'] else natDigitsAux (n + 1) n []

/-- Go `strconv` decimal representation of an `int`. -/
def intChars (n : Int) : List Char :=
  if n < 0 then '-' :: natDigits n.natAbs else natDigits n.natAbs

/-- The exact characters `json.Marshal` produces for a `TokenResponse`
(fields in struct order, no spaces). -/
def marshalChars (t : TokenResponse) : List Char :=
  lbrace :: (qstr "access_token" ++ (':' :: (qstr t.accessToken ++
    (',' :: (qstr "refresh_token" ++ (':' :: (qstr t.refreshToken ++
    (',' :: (qstr "token_type" ++ (':' :: (qstr t.tokenType ++
    (',' :: (qstr "expires_in" ++ (':' :: (intChars t.expiresIn ++
    (',' :: (qstr "id_token" ++ (':' :: (qstr t.idToken ++
    (rbrace :: []))))))))))))))))))))

/-- `json.Marshal` of a `TokenResponse`, as a string. -/
def marshalTokenResponse (t : TokenResponse) : String := String.mk (marshalChars t)

/-- The JSON value a marshalled `TokenResponse` denotes. -/
def tokenJson (t : TokenResponse) : Json :=
  Json.obj [("access_token", Json.str t.accessToken),
    ("refresh_token", Json.str t.refreshToken),
    ("token_type", Json.str t.tokenType),
    ("expires_in", Json.num t.expiresIn),
    ("id_token", Json.str t.idToken)]

/-- Read four hexadecimal digits (Go's `getu4`), returning their value and
the remaining input. -/
def getu4 : List Char → Option (Nat × List Char)
  | h1 :: h2 :: h3 :: h4 :: rest =>
    match hexDigitVal h1, hexDigitVal h2, hexDigitVal h3, hexDigitVal h4 with
    | some a, some b, some c, some d => some (((a * 16 + b) * 16 + c) * 16 + d, rest)
    | _, _, _, _ => none
  | _ => none

/-- Decode one escape sequence, positioned after the backslash: the simple
escapes, and `\uXXXX` with Go's surrogate handling (a valid surrogate pair
combines; a surrogate that does not start a valid pair decodes to U+FFFD
and the input position stays after the first escape). -/
def escapeDecode : List Char → Option (Char × List Char)
  | [] => none
  | e :: rest =>
    if e = 'u' then
      match getu4 rest with
      | none => none
      | some (code, rest2) =>
        if 55296 ≤ code ∧ code < 56320 then
          match rest2 with
          | b1 :: u2 :: rest3 =>
            if b1 = '\\' ∧ u2 = 'u' then
              match getu4 rest3 with
              | some (lo, rest4) =>
                if 56320 ≤ lo ∧ lo < 57344 then
                  some (Char.ofNat (65536 + (code - 55296) * 1024 + (lo - 56320)), rest4)
                else some (Char.ofNat 65533, rest2)
              | none => some (Char.ofNat 65533, rest2)
            else some (Char.ofNat 65533, rest2)
          | _ => some (Char.ofNat 65533, rest2)
        else if 56320 ≤ code ∧ code < 57344 then some (Char.ofNat 65533, rest2)
        else some (Char.ofNat code, rest2)
    else if e = '"' then some ('"', rest)
    else if e = '\\' then some ('\\', rest)
    else if e = '/' then some ('/', rest)
    else if e = 'b' then some (Char.ofNat 8, rest)
    else if e = 'f' then some (Char.ofNat 12, rest)
    else if e = 'n' then some ('\n', rest)
    else if e = 'r' then some ('\r', rest)
    else if e = 't' then some ('\t', rest)
    else none

/-- Parse the content of a JSON string after the opening quote, returning
the decoded characters and the input after the closing quote.  Mirrors Go's
scanner and `unquote`: raw control characters are rejected, escapes are
decoded by `escapeDecode`.  Fuel-driven (one unit per decoded character)
so that the recursion is structural. -/
def parseStringBody : Nat → List Char → Option (List Char × List Char)
  | 0, _ => none
  | _ + 1, [] => none
  | fuel + 1, c :: rest =>
    if c = '"' then some ([], rest)
    else if c = '\\' then
      match escapeDecode rest with
      | some p => (parseStringBody fuel p.2).map (fun pr => (p.1 :: pr.1, pr.2))
      | none => none
    else if c.toNat < 32 then none
    else (parseStringBody fuel rest).map (fun pr => (c :: pr.1, pr.2))

/-- Parse a JSON string body with enough fuel for the whole input. -/
def parseStringTop (cs : List Char) : Option (List Char × List Char) :=
  parseStringBody (cs.length + 1) cs

/-- Split the longest prefix of decimal digits from the input. -/
def takeDigits : List Char → List Char × List Char
  | [] => ([], [])
  | c :: cs =>
    if isDigitCh c then
      let p := takeDigits cs
      (c :: p.1, p.2)
    else ([], c :: cs)

/-- Numeric value of a digit list, most significant first. -/
def digitsVal (ds : List Char) : Nat := ds.foldl (fun a c => a * 10 + (c.toNat - 48)) 0

/-- Parse an optional JSON fraction part; reports whether one was present. -/
def parseFracPart : List Char → Option (Bool × List Char)
  | c :: t =>
    if c = '.' then
      match takeDigits t with
      | ([], _) => none
      | (_ :: _, r) => some (true, r)
    else some (false, c :: t)
  | [] => some (false, [])

/-- Parse an optional JSON exponent part; reports whether one was present. -/
def parseExpPart : List Char → Option (Bool × List Char)
  | c :: t =>
    if c = 'e' ∨ c = 'E' then
      match (match t with
        | s :: t2 => if s = '+' ∨ s = '-' then t2 else s :: t2
        | [] => []) with
      | t3 =>
        match takeDigits t3 with
        | ([], _) => none
        | (_ :: _, r) => some (true, r)
    else some (false, c :: t)
  | [] => some (false, [])

/-- Integer part and trailing parts of a JSON number: produces `Json.num`
for a pure integer literal, `Json.numNonInt` when a fraction or exponent
part is present. -/
def finishNumber (neg : Bool) (v : Nat) (t : List Char) : Option (Json × List Char) :=
  match parseFracPart t with
  | none => none
  | some (f, t1) =>
    match parseExpPart t1 with
    | none => none
    | some (e, t2) =>
      if f ∨ e then some (Json.numNonInt, t2)
      else some (Json.num (if neg then -(v : Int) else (v : Int)), t2)

/-- The integer part and what follows it, after an optional minus sign (Go
grammar: `0` with no further digit, or a nonzero digit followed by
digits). -/
def parseNumCore (neg : Bool) : List Char → Option (Json × List Char)
  | [] => none
  | c :: t =>
    if c = '0' then
      match t with
      | d :: _ => if isDigitCh d then none else finishNumber neg 0 t
      | [] => finishNumber neg 0 t
    else if isDigitCh c then
      match takeDigits t with
      | (ds, r) => finishNumber neg (digitsVal (c :: ds)) r
    else none

/-- Parse a JSON number literal (Go grammar: optional minus, then the
integer part, then optional fraction and exponent). -/
def parseNumber (cs : List Char) : Option (Json × List Char) :=
  match cs with
  | [] => none
  | c :: t => if c = '-' then parseNumCore true t else parseNumCore false (c :: t)

mutual

/-- Parse one JSON value (after skipping leading whitespace), fuel-driven. -/
def parseValue : Nat → List Char → Option (Json × List Char)
  | 0, _ => none
  | fuel + 1, cs =>
    match skipWs cs with
    | [] => none
    | c :: t =>
      if c = '"' then (parseStringTop t).map (fun pr => (Json.str (String.mk pr.1), pr.2))
      else if c = lbrace then
        match skipWs t with
        | [] => none
        | c2 :: t2 =>
          if c2 = rbrace then some (Json.obj [], t2)
          else (parseMembersLoop fuel (c2 :: t2)).map (fun pr => (Json.obj pr.1, pr.2))
      else if c = '[' then
        match skipWs t with
        | [] => none
        | c2 :: t2 =>
          if c2 = ']' then some (Json.arr [], t2)
          else (parseElemsLoop fuel (c2 :: t2)).map (fun pr => (Json.arr pr.1, pr.2))
      else if c = 't' then
        match t with
        | 'r' :: 'u' :: 'e' :: r => some (Json.bool true, r)
        | _ => none
      else if c = 'f' then
        match t with
        | 'a' :: 'l' :: 's' :: 'e' :: r => some (Json.bool false, r)
        | _ => none
      else if c = 'n' then
        match t with
        | 'u' :: 'l' :: 'l' :: r => some (Json.null, r)
        | _ => none
      else if c = '-' ∨ isDigitCh c then parseNumber (c :: t)
      else none

/-- Parse the members of a JSON object, positioned at the first character of
a key string; consumes the closing brace. -/
def parseMembersLoop : Nat → List Char → Option (List (String × Json) × List Char)
  | 0, _ => none
  | fuel + 1, cs =>
    match cs with
    | [] => none
    | c :: t =>
      if c = '"' then
        match parseStringTop t with
        | none => none
        | some (key, r1) =>
          match skipWs r1 with
          | [] => none
          | c2 :: r2 =>
            if c2 = ':' then
              match parseValue fuel r2 with
              | none => none
              | some (v, r3) =>
                match skipWs r3 with
                | [] => none
                | c3 :: r4 =>
                  if c3 = ',' then
                    (parseMembersLoop fuel (skipWs r4)).map (fun pr =>
                      ((String.mk key, v) :: pr.1, pr.2))
                  else if c3 = rbrace then some ([(String.mk key, v)], r4)
                  else none
            else none
      else none

/-- Parse the elements of a JSON array, positioned at the first character of
an element; consumes the closing bracket. -/
def parseElemsLoop : Nat → List Char → Option (List Json × List Char)
  | 0, _ => none
  | fuel + 1, cs =>
    match parseValue fuel cs with
    | none => none
    | some (v, r1) =>
      match skipWs r1 with
      | [] => none
      | c2 :: r2 =>
        if c2 = ',' then (parseElemsLoop fuel r2).map (fun pr => (v :: pr.1, pr.2))
        else if c2 = ']' then some ([v], r2)
        else none

end

/-- Parse a whole JSON document: one value, then only whitespace may remain
(Go's `json.Unmarshal` rejects trailing data). -/
def parseJson (s : String) : Option Json :=
  match parseValue (s.data.length + 1) s.data with
  | some (j, rest) => if skipWs rest = [] then some j else none
  | none => none

/-- Signed 64-bit lower bound (Go `int` on 64-bit platforms). -/
def int64Min : Int := -9223372036854775808

/-- Signed 64-bit upper bound. -/
def int64Max : Int := 9223372036854775807

/-- The zero value of `TokenResponse`, the starting point of
`json.Unmarshal`. -/
def zeroTokenResponse : TokenResponse :=
  { accessToken := "", refreshToken := "", tokenType := "", expiresIn := 0, idToken := "" }

/-- One step of Go's name folding (`encoding/json`'s `foldName`, with
`bytes.EqualFold` semantics): every rune is mapped to the smallest rune of
its simple case-folding orbit.  For comparisons against this struct's tag
names — lowercase ASCII letters and underscores — the orbits involved are
the ASCII letter pairs plus the two Unicode specials, U+212A KELVIN SIGN
(folds with k) and U+017F LATIN SMALL LETTER LONG S (folds with s); every
other rune folds to something outside the tag-name alphabet, so mapping it
to itself compares identically. -/
def foldChar (c : Char) : Char :=
  if 97 ≤ c.toNat ∧ c.toNat ≤ 122 then Char.ofNat (c.toNat - 32)
  else if c.toNat = 8490 then 'K'
  else if c.toNat = 383 then 'S'
  else c

/-- Go's folded form of a JSON member name. -/
def foldName (s : String) : List Char := s.data.map foldChar

/-- Whether an incoming JSON member name selects the struct field with the
given tag name, as Go's `json.Unmarshal` matches fields: an exact match,
or else a case-insensitive (fold) match.  The five tag names of
`TokenResponse` have pairwise distinct folded forms, so an exact match is
a fold match and no name can select two fields; fold equality is therefore
exactly Go's selection. -/
def fieldMatch (k name : String) : Bool := decide (foldName k = foldName name)

/-- Decode a JSON value into a Go `string` field: a string replaces the
current value, `null` leaves it untouched, anything else is a type error. -/
def decodeStringField (v : Json) (cur : String) (msg : String) : Except String String :=
  match v with
  | Json.str s => Except.ok s
  | Json.null => Except.ok cur
  | _ => Except.error msg

/-- Decode a JSON value into a Go `int` field: an integer literal within
the signed 64-bit range replaces the current value, `null` leaves it
untouched, anything else is an error. -/
def decodeIntField (v : Json) (cur : Int) (msg : String) : Except String Int :=
  match v with
  | Json.num n => if int64Min ≤ n ∧ n ≤ int64Max then Except.ok n else Except.error msg
  | Json.null => Except.ok cur
  | _ => Except.error msg

/-- Decode one object member into the struct, as Go's `json.Unmarshal`
does: member names select fields case-insensitively (`fieldMatch`), the
five tagged fields accept a value of their type, unmatched keys are
skipped. -/
def setField (t : TokenResponse) (k : String) (v : Json) : Except String TokenResponse :=
  if fieldMatch k "access_token" then
    Except.map (fun s => { t with accessToken := s }) (decodeStringField v t.accessToken
      "json: cannot unmarshal value into field access_token of type string")
  else if fieldMatch k "refresh_token" then
    Except.map (fun s => { t with refreshToken := s }) (decodeStringField v t.refreshToken
      "json: cannot unmarshal value into field refresh_token of type string")
  else if fieldMatch k "token_type" then
    Except.map (fun s => { t with tokenType := s }) (decodeStringField v t.tokenType
      "json: cannot unmarshal value into field token_type of type string")
  else if fieldMatch k "expires_in" then
    Except.map (fun n => { t with expiresIn := n }) (decodeIntField v t.expiresIn
      "json: cannot unmarshal number into field expires_in of type int")
  else if fieldMatch k "id_token" then
    Except.map (fun s => { t with idToken := s }) (decodeStringField v t.idToken
      "json: cannot unmarshal value into field id_token of type string")
  else Except.ok t

/-- Decode a member list in order, later members overwriting earlier ones. -/
def decodeMembers : TokenResponse → List (String × Json) → Except String TokenResponse
  | t, [] => Except.ok t
  | t, (k, v) :: ms =>
    match setField t k v with
    | Except.ok t' => decodeMembers t' ms
    | Except.error e => Except.error e

/-- `json.Unmarshal` of a body into a `TokenResponse`: the document must be
an object (or `null`, which leaves the zero value). -/
def decodeTokenResponse (j : Json) : Except String TokenResponse :=
  match j with
  | Json.obj ms => decodeMembers zeroTokenResponse ms
  | Json.null => Except.ok zeroTokenResponse
  | _ => Except.error "json: cannot unmarshal value into Go value of type main.TokenResponse"

/-- The body transformer `accessTokenToIdTokenResponseBodyModifier` from
b2bi-oidc-proxy.go: unmarshal the body as a `TokenResponse`, copy the
access token into the id-token field, marshal the result. -/
def accessTokenToIdTokenResponseBodyModifier (body : String) : Except String String :=
  match parseJson body with
  | none => Except.error "invalid JSON"
  | some j =>
    match decodeTokenResponse j with
    | Except.error e => Except.error e
    | Except.ok t =>
      Except.ok (marshalTokenResponse { t with idToken := t.accessToken })

/-- The value a JSON member leaves in a string field (ignoring failure). -/
def applyStrField (v : Json) (cur : String) : String :=
  match v with
  | Json.str s => s
  | _ => cur

/-- The value a JSON member leaves in an int field (ignoring failure). -/
def applyIntField (v : Json) (cur : Int) : Int :=
  match v with
  | Json.num n => n
  | _ => cur

/-- The effect of one object member on the struct, ignoring failure (used
to state what a successful `json.Unmarshal` assigns); member names select
fields case-insensitively, as in `setField`. -/
def applyKV (t : TokenResponse) (kv : String × Json) : TokenResponse :=
  if fieldMatch kv.1 "access_token" then
    { t with accessToken := applyStrField kv.2 t.accessToken }
  else if fieldMatch kv.1 "refresh_token" then
    { t with refreshToken := applyStrField kv.2 t.refreshToken }
  else if fieldMatch kv.1 "token_type" then
    { t with tokenType := applyStrField kv.2 t.tokenType }
  else if fieldMatch kv.1 "expires_in" then
    { t with expiresIn := applyIntField kv.2 t.expiresIn }
  else if fieldMatch kv.1 "id_token" then
    { t with idToken := applyStrField kv.2 t.idToken }
  else t

/-- Whether a JSON value decodes into a string field without error. -/
def strTypeOk (v : Json) : Bool :=
  match v with
  | Json.str _ => true
  | Json.null => true
  | _ => false

/-- Whether a JSON value decodes into an int field without error. -/
def intTypeOk (v : Json) : Bool :=
  match v with
  | Json.num n => decide (int64Min ≤ n ∧ n ≤ int64Max)
  | Json.null => true
  | _ => false

/-- Whether one object member decodes without a type error (member names
select fields case-insensitively, as in `setField`). -/
def kvOk (kv : String × Json) : Bool :=
  if fieldMatch kv.1 "access_token" ∨ fieldMatch kv.1 "refresh_token" ∨
      fieldMatch kv.1 "token_type" ∨ fieldMatch kv.1 "id_token" then strTypeOk kv.2
  else if fieldMatch kv.1 "expires_in" then intTypeOk kv.2
  else true

/-- The values of all members of an object whose names select the field
with the given tag name (case-insensitively, as Go matches fields), in
order. -/
def occs : List (String × Json) → String → List Json
  | [], _ => []
  | (k, v) :: ms, f => if fieldMatch k f then v :: occs ms f else occs ms f

/-- An inbound HTTP request as the handler sees it: method, header
multimap, and the result of `io.ReadAll(r.Body)` (`none` models a read
failure). -/
structure InboundRequest where
  method : String
  headers : List (String × List String)
  readBody : Option String

/-- The outbound request the handler builds with `http.NewRequest` and
sends with `client.Do`. -/
structure OutboundRequest where
  method : String
  url : String
  headers : List (String × List String)
  body : String

/-- A backend HTTP response after a successful `client.Do` and body read:
status code, the textual `Status` line, the result of
`Header.Get("Content-Type")`, and the body bytes. -/
structure BackendResponse where
  statusCode : Nat
  statusText : String
  contentType : String
  body : String

/-- Outcome of contacting the backend: `client.Do` fails; `client.Do`
succeeds (giving status and status text) but `io.ReadAll` of the response
body fails; or both succeed. -/
inductive BackendOutcome where
  | doError (msg : String) : BackendOutcome
  | readError (statusCode : Nat) (statusText : String) (msg : String) : BackendOutcome
  | ok (resp : BackendResponse) : BackendOutcome

/-- Per-call environment: whether `http.NewRequest` succeeds for the
configured backend URL, and the backend outcome. -/
structure Env where
  newRequestOk : Bool
  outcome : BackendOutcome

/-- The response finally written to the caller: the status code sent (an
`http.ResponseWriter` sends 200 when `Write` is called without a prior
`WriteHeader`), the `Content-Type` header if the handler set one, and the
body bytes. -/
structure WrittenResponse where
  statusCode : Nat
  contentType : Option String
  body : String

/-- What one handler invocation did: the backend request it sent, if any,
and the response it wrote. -/
structure HandlerResult where
  backendRequest : Option OutboundRequest
  written : WrittenResponse

/-- `http.Error(w, msg, code)`: sets a `text/plain` content type, the
status code, and writes the message followed by a newline. -/
def httpError (msg : String) (code : Nat) : WrittenResponse :=
  { statusCode := code, contentType := some "text/plain; charset=utf-8", body := msg ++ "\n" }

/-- The generalized handler `proxyingPostHandlerWithResponseModifier`
(first version of b2bi-oidc-proxy.go), as a pure function.  The `debug`
flag only controls diagnostic printing in the source and has no observable
effect.  On a non-2xx backend status the source calls `w.Write(body)`
without ever calling `WriteHeader`, so the written status is 200. -/
def proxyingPostHandlerWithResponseModifier (backendUrl : String)
    (responseBodyModifier : Option (String → Except String String))
    (debug : Bool) (r : InboundRequest) (env : Env) : HandlerResult :=
  if r.method = "POST" then
    match r.readBody with
    | none => ⟨none, httpError "Error reading request body" 500⟩
    | some body =>
      if env.newRequestOk then
        let backendReq : OutboundRequest := ⟨"POST", backendUrl, r.headers, body⟩
        match env.outcome with
        | BackendOutcome.doError msg =>
          ⟨some backendReq, httpError ("Error connecting to backend: " ++ msg) 500⟩
        | BackendOutcome.readError _ _ msg =>
          ⟨some backendReq, httpError ("Error reading response from backend: " ++ msg) 500⟩
        | BackendOutcome.ok resp =>
          if resp.statusCode ≥ 300 ∨ resp.statusCode < 200 then
            ⟨some backendReq, ⟨200, none, resp.body⟩⟩
          else
            match responseBodyModifier with
            | some m =>
              match m resp.body with
              | Except.error e =>
                ⟨some backendReq, httpError ("Error processing request body modifier: " ++ e) 500⟩
              | Except.ok responseBody =>
                ⟨some backendReq, ⟨200, some resp.contentType, responseBody⟩⟩
            | none => ⟨some backendReq, ⟨200, some resp.contentType, resp.body⟩⟩
      else ⟨none, httpError "Error creating outbound request" 500⟩
  else ⟨none, httpError "(proxyingPostHandlerWithResponseModifier) Invalid request method" 405⟩

/-- The original handler `postTokenHandler` (second version of
b2bi-oidc-proxy.go), as a pure function.  It checks the backend status
before reading the backend body, relays a non-2xx backend status through
`http.Error` with a diagnostic body, and inlines the
unmarshal/copy/marshal transformation on success. -/
def postTokenHandler (tokenEndpoint : String) (debug : Bool)
    (r : InboundRequest) (env : Env) : HandlerResult :=
  if r.method = "POST" then
    match r.readBody with
    | none => ⟨none, httpError "Error reading request body" 500⟩
    | some body =>
      if env.newRequestOk then
        let backendReq : OutboundRequest := ⟨"POST", tokenEndpoint, r.headers, body⟩
        match env.outcome with
        | BackendOutcome.doError msg =>
          ⟨some backendReq, httpError ("Error connecting to backend: " ++ msg) 500⟩
        | BackendOutcome.readError code statusText msg =>
          if code ≥ 300 ∨ code < 200 then
            ⟨some backendReq, httpError ("Backend returned a non-success response: " ++ statusText) code⟩
          else
            ⟨some backendReq, httpError ("Error reading response from backend: " ++ msg) 500⟩
        | BackendOutcome.ok resp =>
          if resp.statusCode ≥ 300 ∨ resp.statusCode < 200 then
            ⟨some backendReq,
              httpError ("Backend returned a non-success response: " ++ resp.statusText) resp.statusCode⟩
          else
            match parseJson resp.body with
            | none =>
              ⟨some backendReq, httpError ("Error parsing request body: " ++ "invalid JSON") 500⟩
            | some j =>
              match decodeTokenResponse j with
              | Except.error e =>
                ⟨some backendReq, httpError ("Error parsing request body: " ++ e) 500⟩
              | Except.ok t =>
                ⟨some backendReq,
                  ⟨200, some resp.contentType,
                    marshalTokenResponse { t with idToken := t.accessToken }⟩⟩
      else ⟨none, httpError "Error creating outbound request" 500⟩
  else ⟨none, httpError "Invalid request method" 405⟩

theorem mk_data (s : String) : String.mk s.data = s := by
  cases s
  rfl

theorem charOfNat_toNat_of_small (n : Nat) (h : n < 55296) : (Char.ofNat n).toNat = n := by
  have hv : n.isValidChar := Or.inl h
  rw [Char.ofNat, dif_pos hv]
  rfl

theorem skipWs_nil : skipWs [] = [] := rfl

theorem skipWs_cons_of_neg (c : Char) (t : List Char) (h : isWs c = false) :
    skipWs (c :: t) = c :: t := by
  simp [skipWs, List.dropWhile, h]

theorem hexDigitVal_hexDigit (n : Nat) (h : n < 16) : hexDigitVal (hexDigit n) = some n := by
  have key : ∀ m : Fin 16, hexDigitVal (hexDigit m.val) = some m.val := by decide
  exact key ⟨n, h⟩

theorem psb_encChar (c : Char) (fuel : Nat) (tail : List Char) :
    parseStringBody (fuel + 1) (encChar c ++ tail) =
      (parseStringBody fuel tail).map (fun pr => (c :: pr.1, pr.2)) := by
  by_cases h1 : c = '"'
  · subst h1
    simp [encChar, parseStringBody, escapeDecode]
  by_cases h2 : c = '\\'
  · subst h2
    simp [encChar, parseStringBody, escapeDecode]
  by_cases h3 : c = '\n'
  · subst h3
    simp [encChar, parseStringBody, escapeDecode]
  by_cases h4 : c = '\r'
  · subst h4
    simp [encChar, parseStringBody, escapeDecode]
  by_cases h5 : c = '\t'
  · subst h5
    simp [encChar, parseStringBody, escapeDecode]
  by_cases h6 : c.toNat < 32
  · have hq : c.toNat / 16 < 16 := by omega
    have hr : c.toNat % 16 < 16 := by omega
    have ed1 : hexDigitVal (hexDigit (c.toNat / 16)) = some (c.toNat / 16) :=
      hexDigitVal_hexDigit _ hq
    have ed0 : hexDigitVal (hexDigit (c.toNat % 16)) = some (c.toNat % 16) :=
      hexDigitVal_hexDigit _ hr
    have e0 : hexDigitVal '0' = some 0 := by decide
    have hcode : ((0 * 16 + 0) * 16 + c.toNat / 16) * 16 + c.toNat % 16 = c.toNat := by omega
    have hs1 : ¬(55296 ≤ c.toNat ∧ c.toNat < 56320) := by omega
    have hs2 : ¬(56320 ≤ c.toNat ∧ c.toNat < 57344) := by omega
    simp only [encChar, if_neg h1, if_neg h2, if_neg h3, if_neg h4, if_neg h5, if_pos h6,
      List.cons_append, List.nil_append, parseStringBody, escapeDecode, getu4, e0, ed1, ed0,
      hcode]
    simp [hs1, hs2, Char.ofNat_toNat]
  by_cases h7 : c = '<'
  · subst h7
    simp +decide [encChar, parseStringBody, escapeDecode, getu4, hexDigitVal]
  by_cases h8 : c = '>'
  · subst h8
    simp +decide [encChar, parseStringBody, escapeDecode, getu4, hexDigitVal]
  by_cases h9 : c = '&'
  · subst h9
    simp +decide [encChar, parseStringBody, escapeDecode, getu4, hexDigitVal]
  by_cases h10 : c.toNat = 8232
  · have hc : c = Char.ofNat 8232 := by
      rw [← Char.ofNat_toNat c, h10]
    subst hc
    simp +decide [encChar, parseStringBody, escapeDecode, getu4, hexDigitVal]
  by_cases h11 : c.toNat = 8233
  · have hc : c = Char.ofNat 8233 := by
      rw [← Char.ofNat_toNat c, h11]
    subst hc
    simp +decide [encChar, parseStringBody, escapeDecode, getu4, hexDigitVal]
  · simp only [encChar, if_neg h1, if_neg h2, if_neg h3, if_neg h4, if_neg h5, if_neg h6,
      if_neg h7, if_neg h8, if_neg h9, if_neg h10, if_neg h11, List.cons_append, List.nil_append]
    simp only [parseStringBody, if_neg h1, if_neg h2, if_neg h6]

theorem psb_encList (cs : List Char) (rest : List Char) :
    ∀ fuel, cs.length < fuel →
      parseStringBody fuel (encList cs ++ '"' :: rest) = some (cs, rest) := by
  induction cs with
  | nil =>
    intro fuel hf
    match fuel, hf with
    | fuel + 1, _ => simp [encList, parseStringBody]
  | cons c cs ih =>
    intro fuel hf
    match fuel, hf with
    | fuel + 1, hf =>
      rw [encList, List.append_assoc, psb_encChar, ih fuel (by simpa using Nat.lt_of_succ_lt_succ hf)]
      rfl

theorem encChar_length_pos (c : Char) : 1 ≤ (encChar c).length := by
  unfold encChar
  split_ifs <;> simp

theorem encList_length_ge (cs : List Char) : cs.length ≤ (encList cs).length := by
  induction cs with
  | nil => simp [encList]
  | cons c cs ih =>
    rw [encList]
    have := encChar_length_pos c
    simp only [List.length_append, List.length_cons]
    omega

theorem psbTop_enc (cs : List Char) (rest : List Char) :
    parseStringTop (encList cs ++ '"' :: rest) = some (cs, rest) := by
  have h1 := encList_length_ge cs
  apply psb_encList
  simp only [List.length_append, List.length_cons]
  omega

theorem ne_of_toNat_ne {c d : Char} (h : c.toNat ≠ d.toNat) : c ≠ d := by
  intro he
  exact h (he ▸ rfl)

theorem isDigitCh_iff (c : Char) : isDigitCh c = true ↔ 48 ≤ c.toNat ∧ c.toNat ≤ 57 := by
  simp [isDigitCh]

theorem isWs_eq_false_of_digit (c : Char) (h : isDigitCh c = true) : isWs c = false := by
  have hb := (isDigitCh_iff c).mp h
  have h32 : (' ' : Char).toNat = 32 := rfl
  have h9 : ('\t' : Char).toNat = 9 := rfl
  have h10 : ('\n' : Char).toNat = 10 := rfl
  have h13 : ('\r' : Char).toNat = 13 := rfl
  simp only [isWs, Bool.or_eq_false_iff, decide_eq_false_iff_not]
  refine ⟨⟨⟨?_, ?_⟩, ?_⟩, ?_⟩ <;> (apply ne_of_toNat_ne; omega)

theorem natDigitsAux_zero (fuel : Nat) (acc : List Char) : natDigitsAux fuel 0 acc = acc := by
  cases fuel <;> simp [natDigitsAux]

theorem natDigitsAux_append (fuel : Nat) :
    ∀ n acc, natDigitsAux fuel n acc = natDigitsAux fuel n [] ++ acc := by
  induction fuel with
  | zero => intro n acc; simp [natDigitsAux]
  | succ fuel ih =>
    intro n acc
    by_cases h : n = 0
    · simp [natDigitsAux, h]
    · rw [natDigitsAux, if_neg h, natDigitsAux, if_neg h,
        ih (n / 10) (Char.ofNat (48 + n % 10) :: acc), ih (n / 10) [Char.ofNat (48 + n % 10)]]
      simp

theorem toNat_digitChar (m : Nat) (h : m < 10) : (Char.ofNat (48 + m)).toNat = 48 + m :=
  charOfNat_toNat_of_small _ (by omega)

theorem isDigitCh_digitChar (m : Nat) (h : m < 10) : isDigitCh (Char.ofNat (48 + m)) = true := by
  rw [isDigitCh_iff, toNat_digitChar m h]
  omega

theorem natDigitsAux_digits (fuel : Nat) :
    ∀ n acc, (∀ c ∈ acc, isDigitCh c = true) →
      ∀ c ∈ natDigitsAux fuel n acc, isDigitCh c = true := by
  induction fuel with
  | zero => intro n acc hacc; simpa [natDigitsAux] using hacc
  | succ fuel ih =>
    intro n acc hacc c hc
    by_cases h : n = 0
    · rw [natDigitsAux, if_pos h] at hc
      exact hacc c hc
    · rw [natDigitsAux, if_neg h] at hc
      refine ih (n / 10) _ ?_ c hc
      intro c' hc'
      rcases List.mem_cons.mp hc' with h1 | h1
      · subst h1
        exact isDigitCh_digitChar _ (Nat.mod_lt _ (by omega))
      · exact hacc c' h1

theorem digitsVal_append_singleton (ds : List Char) (d : Char) :
    digitsVal (ds ++ [d]) = digitsVal ds * 10 + (d.toNat - 48) := by
  simp [digitsVal, List.foldl_append]

theorem natDigitsAux_val (fuel : Nat) :
    ∀ n, n ≤ fuel → 0 < n → digitsVal (natDigitsAux fuel n []) = n := by
  induction fuel with
  | zero => intro n h1 h2; omega
  | succ fuel ih =>
    intro n h1 h2
    rw [natDigitsAux, if_neg (by omega), natDigitsAux_append]
    by_cases h : n / 10 = 0
    · rw [h, natDigitsAux_zero]
      have hm : n % 10 < 10 := Nat.mod_lt _ (by omega)
      simp only [List.nil_append, List.append_nil]
      have : digitsVal [Char.ofNat (48 + n % 10)] = n % 10 := by
        simp [digitsVal, toNat_digitChar _ hm]
      rw [this]
      omega
    · have hle : n / 10 ≤ fuel := by omega
      rw [digitsVal_append_singleton, ih (n / 10) hle (by omega),
        toNat_digitChar _ (Nat.mod_lt _ (by omega))]
      omega

theorem natDigitsAux_shape (fuel : Nat) :
    ∀ n, n ≤ fuel → 0 < n →
      ∃ d ds, natDigitsAux fuel n [] = d :: ds ∧ isDigitCh d = true ∧ d.toNat ≠ 48 := by
  induction fuel with
  | zero => intro n h1 h2; omega
  | succ fuel ih =>
    intro n h1 h2
    rw [natDigitsAux, if_neg (by omega)]
    by_cases h : n / 10 = 0
    · rw [h, natDigitsAux_zero]
      have hm : n % 10 < 10 := Nat.mod_lt _ (by omega)
      have hn10 : n < 10 := by omega
      have hmn : n % 10 = n := Nat.mod_eq_of_lt hn10
      refine ⟨_, [], rfl, isDigitCh_digitChar _ hm, ?_⟩
      rw [toNat_digitChar _ hm]
      omega
    · obtain ⟨d, ds, heq, hdig, hne⟩ := ih (n / 10) (by omega) (by omega)
      rw [natDigitsAux_append, heq]
      exact ⟨d, ds ++ [Char.ofNat (48 + n % 10)], by simp, hdig, hne⟩

theorem natDigits_val (n : Nat) : digitsVal (natDigits n) = n := by
  by_cases h : n = 0
  · subst h; decide
  · rw [natDigits, if_neg h]
    exact natDigitsAux_val (n + 1) n (by omega) (by omega)

theorem natDigits_all (n : Nat) : ∀ c ∈ natDigits n, isDigitCh c = true := by
  by_cases h : n = 0
  · subst h; decide
  · rw [natDigits, if_neg h]
    exact natDigitsAux_digits (n + 1) n [] (by simp)

theorem natDigits_shape (n : Nat) :
    ∃ d ds, natDigits n = d :: ds ∧ isDigitCh d = true ∧ (0 < n → d.toNat ≠ 48) := by
  by_cases h : n = 0
  · subst h
    exact ⟨'0', [], rfl, by decide, by omega⟩
  · rw [natDigits, if_neg h]
    obtain ⟨d, ds, heq, hdig, hne⟩ := natDigitsAux_shape (n + 1) n (by omega) (by omega)
    exact ⟨d, ds, heq, hdig, fun _ => hne⟩

/-- The next input character, if any, does not continue a digit run. -/
def headNotDigit : List Char → Prop
  | [] => True
  | c :: _ => isDigitCh c = false

/-- The next input character, if any, cannot continue a JSON number
literal. -/
def numStop : List Char → Prop
  | [] => True
  | c :: _ => isDigitCh c = false ∧ c ≠ '.' ∧ c ≠ 'e' ∧ c ≠ 'E'

theorem headNotDigit_of_numStop (r : List Char) (h : numStop r) : headNotDigit r := by
  cases r with
  | nil => trivial
  | cons c t => exact h.1

theorem takeDigits_append (ds r : List Char) (hds : ∀ c ∈ ds, isDigitCh c = true)
    (hr : headNotDigit r) : takeDigits (ds ++ r) = (ds, r) := by
  induction ds with
  | nil =>
    cases r with
    | nil => rfl
    | cons c t =>
      simp only [List.nil_append, takeDigits]
      rw [if_neg]
      simp only [headNotDigit] at hr
      simp [hr]
  | cons d ds ih =>
    simp only [List.cons_append, takeDigits, List.append_eq]
    rw [if_pos (hds d (by simp)), ih (fun c hc => hds c (by simp [hc]))]

theorem parseFracPart_stop (r : List Char) (h : numStop r) :
    parseFracPart r = some (false, r) := by
  cases r with
  | nil => rfl
  | cons c t =>
    simp only [parseFracPart]
    rw [if_neg h.2.1]

theorem parseExpPart_stop (r : List Char) (h : numStop r) :
    parseExpPart r = some (false, r) := by
  cases r with
  | nil => rfl
  | cons c t =>
    simp only [parseExpPart]
    rw [if_neg]
    push_neg
    exact ⟨h.2.2.1, h.2.2.2⟩

theorem finishNumber_stop (neg : Bool) (v : Nat) (r : List Char) (h : numStop r) :
    finishNumber neg v r = some (Json.num (if neg then -(v : Int) else (v : Int)), r) := by
  simp [finishNumber, parseFracPart_stop r h, parseExpPart_stop r h]

theorem parseNumCore_natDigits (neg : Bool) (v : Nat) (rest : List Char) (h : numStop rest) :
    parseNumCore neg (natDigits v ++ rest) =
      some (Json.num (if neg then -(v : Int) else (v : Int)), rest) := by
  by_cases hz : v = 0
  · subst hz
    have h0 : natDigits 0 = ['0'] := rfl
    rw [h0, List.cons_append]
    simp only [parseNumCore, reduceIte, List.nil_append]
    cases rest with
    | nil => rw [finishNumber_stop neg 0 [] trivial]
    | cons c t =>
      show (if isDigitCh c = true then none else finishNumber neg 0 (c :: t)) =
        some (Json.num (if neg = true then -((0 : Nat) : Int) else ((0 : Nat) : Int)), c :: t)
      rw [h.1]
      simp only [Bool.false_eq_true, reduceIte]
      rw [finishNumber_stop neg 0 (c :: t) h]
  · obtain ⟨d, ds, heq, hdig, hne⟩ := natDigits_shape v
    have hd0 : ¬(d = '0') := by
      apply ne_of_toNat_ne
      have h48 : ('0' : Char).toNat = 48 := rfl
      have := hne (by omega)
      omega
    have hds : ∀ c ∈ ds, isDigitCh c = true := by
      intro c hc
      exact natDigits_all v c (by rw [heq]; exact List.mem_cons_of_mem d hc)
    rw [heq, List.cons_append]
    simp only [parseNumCore]
    rw [if_neg hd0, if_pos hdig]
    simp only [takeDigits_append ds rest hds (headNotDigit_of_numStop rest h)]
    have hval : digitsVal (d :: ds) = v := by
      rw [← heq]
      exact natDigits_val v
    rw [hval, finishNumber_stop neg v rest h]

theorem parseNumber_intChars (n : Int) (rest : List Char) (h : numStop rest) :
    parseNumber (intChars n ++ rest) = some (Json.num n, rest) := by
  by_cases hneg : n < 0
  · rw [intChars, if_pos hneg, List.cons_append]
    simp only [parseNumber, reduceIte]
    rw [parseNumCore_natDigits true n.natAbs rest h]
    have hval : -((n.natAbs : Nat) : Int) = n := by omega
    simp only [reduceIte]
    rw [hval]
  · rw [intChars, if_neg hneg]
    obtain ⟨d, ds, heq, hdig, _⟩ := natDigits_shape n.natAbs
    have hdne : ¬(d = '-') := by
      apply ne_of_toNat_ne
      have h45 : ('-' : Char).toNat = 45 := rfl
      have := (isDigitCh_iff d).mp hdig
      omega
    rw [heq, List.cons_append]
    simp only [parseNumber]
    rw [if_neg hdne, ← List.cons_append, ← heq,
      parseNumCore_natDigits false n.natAbs rest h]
    have hval : ((n.natAbs : Nat) : Int) = n := by omega
    simp only [Bool.false_eq_true, reduceIte]
    rw [hval]

theorem qstr_cons (s : String) (x : List Char) :
    qstr s ++ x = '"' :: (encList s.data ++ '"' :: x) := by
  simp [qstr]

theorem pv_str (fuel : Nat) (s : String) (rest : List Char) :
    parseValue (fuel + 1) (qstr s ++ rest) = some (Json.str s, rest) := by
  rw [qstr_cons]
  simp only [parseValue, skipWs_cons_of_neg _ _ (by decide : isWs '"' = false)]
  simp [psbTop_enc, mk_data]

theorem numStop_cons (c : Char) (x : List Char) (h1 : isDigitCh c = false) (h2 : c ≠ '.')
    (h3 : c ≠ 'e') (h4 : c ≠ 'E') : numStop (c :: x) :=
  ⟨h1, h2, h3, h4⟩

theorem numStart_facts (d : Char) (h : d = '-' ∨ isDigitCh d = true) :
    isWs d = false ∧ ¬(d = '"') ∧ ¬(d = lbrace) ∧ ¬(d = '[') ∧ ¬(d = 't') ∧ ¬(d = 'f') ∧
      ¬(d = 'n') := by
  rcases h with h | h
  · subst h
    refine ⟨by decide, by decide, by decide, by decide, by decide, by decide, by decide⟩
  · have hb := (isDigitCh_iff d).mp h
    have e1 : ('"' : Char).toNat = 34 := rfl
    have e2 : lbrace.toNat = 123 := rfl
    have e3 : ('[' : Char).toNat = 91 := rfl
    have e4 : ('t' : Char).toNat = 116 := rfl
    have e5 : ('f' : Char).toNat = 102 := rfl
    have e6 : ('n' : Char).toNat = 110 := rfl
    exact ⟨isWs_eq_false_of_digit d h, ne_of_toNat_ne (by omega), ne_of_toNat_ne (by omega),
      ne_of_toNat_ne (by omega), ne_of_toNat_ne (by omega), ne_of_toNat_ne (by omega),
      ne_of_toNat_ne (by omega)⟩

theorem intChars_shape (n : Int) :
    ∃ d tl, intChars n = d :: tl ∧ (d = '-' ∨ isDigitCh d = true) := by
  by_cases hneg : n < 0
  · exact ⟨'-', natDigits n.natAbs, by rw [intChars, if_pos hneg], Or.inl rfl⟩
  · obtain ⟨d, ds, heq, hdig, _⟩ := natDigits_shape n.natAbs
    exact ⟨d, ds, by rw [intChars, if_neg hneg, heq], Or.inr hdig⟩

theorem pv_num (fuel : Nat) (n : Int) (rest : List Char) (h : numStop rest) :
    parseValue (fuel + 1) (intChars n ++ rest) = some (Json.num n, rest) := by
  obtain ⟨d, tl, heq, hstart⟩ := intChars_shape n
  obtain ⟨hws, hne1, hne2, hne3, hne4, hne5, hne6⟩ := numStart_facts d hstart
  rw [heq, List.cons_append]
  simp only [parseValue, skipWs_cons_of_neg _ _ hws]
  rw [if_neg hne1, if_neg hne2, if_neg hne3, if_neg hne4, if_neg hne5, if_neg hne6,
    if_pos hstart, ← List.cons_append, ← heq, parseNumber_intChars n rest h]

theorem pml_last (fuel : Nat) (k : String) (v : Json) (vcs tail : List Char)
    (hv : parseValue fuel (vcs ++ (rbrace :: tail)) = some (v, rbrace :: tail)) :
    parseMembersLoop (fuel + 1) (qstr k ++ (':' :: (vcs ++ (rbrace :: tail)))) =
      some ([(k, v)], tail) := by
  rw [qstr_cons]
  have e1 : (rbrace = ',') = False := eq_false (by decide)
  have e2 : (rbrace = rbrace) = True := eq_true rfl
  simp only [parseMembersLoop, reduceIte, psbTop_enc k.data (':' :: (vcs ++ (rbrace :: tail))),
    skipWs_cons_of_neg _ _ (by decide : isWs ':' = false),
    skipWs_cons_of_neg _ _ (by decide : isWs rbrace = false), hv, mk_data, e1, e2,
    if_true, if_false]

theorem pml_cons (fuel : Nat) (k k2 : String) (v : Json) (vcs x tail : List Char)
    (ms : List (String × Json))
    (hv : parseValue fuel (vcs ++ (',' :: (qstr k2 ++ x))) = some (v, ',' :: (qstr k2 ++ x)))
    (hnext : parseMembersLoop fuel (qstr k2 ++ x) = some (ms, tail)) :
    parseMembersLoop (fuel + 1) (qstr k ++ (':' :: (vcs ++ (',' :: (qstr k2 ++ x))))) =
      some ((k, v) :: ms, tail) := by
  rw [qstr_cons k]
  have hskip : skipWs (qstr k2 ++ x) = qstr k2 ++ x := by
    rw [qstr_cons k2]
    exact skipWs_cons_of_neg _ _ (by decide)
  simp only [parseMembersLoop, reduceIte,
    psbTop_enc k.data (':' :: (vcs ++ (',' :: (qstr k2 ++ x)))),
    skipWs_cons_of_neg _ _ (by decide : isWs ':' = false),
    skipWs_cons_of_neg _ _ (by decide : isWs ',' = false), hv, hskip, hnext, mk_data,
    Option.map_some']

theorem pv_obj (fuel : Nat) (k : String) (x : List Char) (ms : List (String × Json))
    (tail : List Char) (h : parseMembersLoop fuel (qstr k ++ x) = some (ms, tail)) :
    parseValue (fuel + 1) (lbrace :: (qstr k ++ x)) = some (Json.obj ms, tail) := by
  rw [qstr_cons k] at h ⊢
  have e1 : (lbrace = '"') = False := eq_false (by decide)
  have e2 : (lbrace = lbrace) = True := eq_true rfl
  have e3 : (('"' : Char) = rbrace) = False := eq_false (by decide)
  simp only [parseValue, skipWs_cons_of_neg _ _ (by decide : isWs lbrace = false),
    skipWs_cons_of_neg _ _ (by decide : isWs '"' = false), e1, e2, e3, if_true, if_false,
    h, Option.map_some']

theorem parseValue_marshal (fuel : Nat) (t : TokenResponse) :
    parseValue (fuel + 7) (marshalChars t) = some (tokenJson t, []) := by
  have h5 : parseMembersLoop (fuel + 2)
      (qstr "id_token" ++ (':' :: (qstr t.idToken ++ (rbrace :: [])))) =
        some ([("id_token", Json.str t.idToken)], []) :=
    pml_last (fuel + 1) _ _ _ _ (pv_str fuel t.idToken (rbrace :: []))
  have h4 : parseMembersLoop (fuel + 3)
      (qstr "expires_in" ++ (':' :: (intChars t.expiresIn ++
        (',' :: (qstr "id_token" ++ (':' :: (qstr t.idToken ++ (rbrace :: [])))))))) =
        some ([("expires_in", Json.num t.expiresIn), ("id_token", Json.str t.idToken)], []) :=
    pml_cons (fuel + 2) _ _ _ _ _ _ _
      (pv_num (fuel + 1) t.expiresIn _
        (numStop_cons ',' _ (by decide) (by decide) (by decide) (by decide)))
      h5
  have h3 : parseMembersLoop (fuel + 4)
      (qstr "token_type" ++ (':' :: (qstr t.tokenType ++
        (',' :: (qstr "expires_in" ++ (':' :: (intChars t.expiresIn ++
        (',' :: (qstr "id_token" ++ (':' :: (qstr t.idToken ++ (rbrace :: [])))))))))))) =
        some ([("token_type", Json.str t.tokenType), ("expires_in", Json.num t.expiresIn),
          ("id_token", Json.str t.idToken)], []) :=
    pml_cons (fuel + 3) _ _ _ _ _ _ _ (pv_str (fuel + 2) t.tokenType _) h4
  have h2 : parseMembersLoop (fuel + 5)
      (qstr "refresh_token" ++ (':' :: (qstr t.refreshToken ++
        (',' :: (qstr "token_type" ++ (':' :: (qstr t.tokenType ++
        (',' :: (qstr "expires_in" ++ (':' :: (intChars t.expiresIn ++
        (',' :: (qstr "id_token" ++ (':' :: (qstr t.idToken ++ (rbrace :: [])))))))))))))))) =
        some ([("refresh_token", Json.str t.refreshToken), ("token_type", Json.str t.tokenType),
          ("expires_in", Json.num t.expiresIn), ("id_token", Json.str t.idToken)], []) :=
    pml_cons (fuel + 4) _ _ _ _ _ _ _ (pv_str (fuel + 3) t.refreshToken _) h3
  have h1 : parseMembersLoop (fuel + 6)
      (qstr "access_token" ++ (':' :: (qstr t.accessToken ++
        (',' :: (qstr "refresh_token" ++ (':' :: (qstr t.refreshToken ++
        (',' :: (qstr "token_type" ++ (':' :: (qstr t.tokenType ++
        (',' :: (qstr "expires_in" ++ (':' :: (intChars t.expiresIn ++
        (',' :: (qstr "id_token" ++ (':' :: (qstr t.idToken ++ (rbrace :: [])))))))))))))))))))) =
        some ([("access_token", Json.str t.accessToken),
          ("refresh_token", Json.str t.refreshToken), ("token_type", Json.str t.tokenType),
          ("expires_in", Json.num t.expiresIn), ("id_token", Json.str t.idToken)], []) :=
    pml_cons (fuel + 5) _ _ _ _ _ _ _ (pv_str (fuel + 4) t.accessToken _) h2
  rw [marshalChars]
  exact pv_obj (fuel + 6) "access_token" _ _ _ h1

theorem marshalChars_length (t : TokenResponse) : 6 ≤ (marshalChars t).length := by
  rw [marshalChars]
  have h14 : (qstr "access_token").length = 14 := rfl
  simp only [List.length_cons, List.length_append, h14]
  omega

theorem marshalTokenResponse_data (t : TokenResponse) :
    (marshalTokenResponse t).data = marshalChars t := rfl

theorem parseJson_marshal (t : TokenResponse) :
    parseJson (marshalTokenResponse t) = some (tokenJson t) := by
  rw [parseJson, marshalTokenResponse_data]
  have hlen : 6 ≤ (marshalChars t).length := marshalChars_length t
  obtain ⟨m, hm⟩ : ∃ m, (marshalChars t).length + 1 = m + 7 :=
    ⟨(marshalChars t).length - 6, by omega⟩
  rw [hm, parseValue_marshal m t]
  rfl

theorem fieldMatch_exclusive {k n1 n2 : String} (h : fieldMatch k n1 = true)
    (hne : foldName n1 ≠ foldName n2) : fieldMatch k n2 = false := by
  have h1 : foldName k = foldName n1 := of_decide_eq_true h
  apply decide_eq_false
  intro h2
  exact hne (h1.symm.trans h2)

theorem decodeStringField_of_ok (v : Json) (cur msg : String) (h : strTypeOk v = true) :
    decodeStringField v cur msg = Except.ok (applyStrField v cur) := by
  cases v <;> simp_all [decodeStringField, applyStrField, strTypeOk]

theorem decodeIntField_of_ok (v : Json) (cur : Int) (msg : String) (h : intTypeOk v = true) :
    decodeIntField v cur msg = Except.ok (applyIntField v cur) := by
  cases v with
  | num n =>
    have hr : int64Min ≤ n ∧ n ≤ int64Max := of_decide_eq_true (by simpa [intTypeOk] using h)
    simp [decodeIntField, applyIntField, hr]
  | null => rfl
  | bool b => exact Bool.noConfusion h
  | str s => exact Bool.noConfusion h
  | numNonInt => exact Bool.noConfusion h
  | arr el => exact Bool.noConfusion h
  | obj ms => exact Bool.noConfusion h

theorem setField_of_kvOk (t : TokenResponse) (k : String) (v : Json)
    (h : kvOk (k, v) = true) : setField t k v = Except.ok (applyKV t (k, v)) := by
  by_cases h1 : fieldMatch k "access_token" = true
  · have hkv : strTypeOk v = true := by simpa [kvOk, h1] using h
    simp [setField, applyKV, h1, decodeStringField_of_ok v _ _ hkv, Except.map]
  by_cases h2 : fieldMatch k "refresh_token" = true
  · have hkv : strTypeOk v = true := by simpa [kvOk, h2] using h
    simp [setField, applyKV, h1, h2, decodeStringField_of_ok v _ _ hkv, Except.map]
  by_cases h3 : fieldMatch k "token_type" = true
  · have hkv : strTypeOk v = true := by simpa [kvOk, h3] using h
    simp [setField, applyKV, h1, h2, h3, decodeStringField_of_ok v _ _ hkv, Except.map]
  by_cases h4 : fieldMatch k "expires_in" = true
  · have hid : fieldMatch k "id_token" = false := fieldMatch_exclusive h4 (by decide)
    have hkv : intTypeOk v = true := by simpa [kvOk, h1, h2, h3, h4, hid] using h
    simp [setField, applyKV, h1, h2, h3, h4, decodeIntField_of_ok v _ _ hkv, Except.map]
  by_cases h5 : fieldMatch k "id_token" = true
  · have hkv : strTypeOk v = true := by simpa [kvOk, h5] using h
    simp [setField, applyKV, h1, h2, h3, h4, h5, decodeStringField_of_ok v _ _ hkv, Except.map]
  · simp [setField, applyKV, h1, h2, h3, h4, h5]

theorem decodeMembers_of_all (ms : List (String × Json)) :
    ∀ t, (∀ kv ∈ ms, kvOk kv = true) →
      decodeMembers t ms = Except.ok (ms.foldl applyKV t) := by
  induction ms with
  | nil => intro t _; rfl
  | cons kv ms ih =>
    intro t h
    rcases kv with ⟨k, v⟩
    simp only [decodeMembers, setField_of_kvOk t k v (h (k, v) (by simp)), List.foldl_cons]
    exact ih (applyKV t (k, v)) (fun kv' h' => h kv' (by simp [h']))

theorem applyKV_access_of_ne (t : TokenResponse) (k : String) (v : Json)
    (h : ¬(fieldMatch k "access_token" = true)) :
    (applyKV t (k, v)).accessToken = t.accessToken := by
  simp only [applyKV, if_neg h]
  split_ifs <;> rfl

theorem applyKV_refresh_of_ne (t : TokenResponse) (k : String) (v : Json)
    (h : ¬(fieldMatch k "refresh_token" = true)) :
    (applyKV t (k, v)).refreshToken = t.refreshToken := by
  simp only [applyKV]
  split_ifs with h1 h2 <;> simp_all

theorem applyKV_tokenType_of_ne (t : TokenResponse) (k : String) (v : Json)
    (h : ¬(fieldMatch k "token_type" = true)) :
    (applyKV t (k, v)).tokenType = t.tokenType := by
  simp only [applyKV]
  split_ifs with h1 h2 h3 <;> simp_all

theorem applyKV_expires_of_ne (t : TokenResponse) (k : String) (v : Json)
    (h : ¬(fieldMatch k "expires_in" = true)) :
    (applyKV t (k, v)).expiresIn = t.expiresIn := by
  simp only [applyKV]
  split_ifs with h1 h2 h3 h4 <;> simp_all

theorem applyKV_access_set (t : TokenResponse) (k : String) (a : String)
    (h : fieldMatch k "access_token" = true) :
    (applyKV t (k, Json.str a)).accessToken = a := by
  simp [applyKV, h, applyStrField]

theorem applyKV_refresh_set (t : TokenResponse) (k : String) (a : String)
    (h : fieldMatch k "refresh_token" = true) :
    (applyKV t (k, Json.str a)).refreshToken = a := by
  have e1 : fieldMatch k "access_token" = false := fieldMatch_exclusive h (by decide)
  simp [applyKV, h, e1, applyStrField]

theorem applyKV_tokenType_set (t : TokenResponse) (k : String) (a : String)
    (h : fieldMatch k "token_type" = true) :
    (applyKV t (k, Json.str a)).tokenType = a := by
  have e1 : fieldMatch k "access_token" = false := fieldMatch_exclusive h (by decide)
  have e2 : fieldMatch k "refresh_token" = false := fieldMatch_exclusive h (by decide)
  simp [applyKV, h, e1, e2, applyStrField]

theorem applyKV_expires_set (t : TokenResponse) (k : String) (n : Int)
    (h : fieldMatch k "expires_in" = true) :
    (applyKV t (k, Json.num n)).expiresIn = n := by
  have e1 : fieldMatch k "access_token" = false := fieldMatch_exclusive h (by decide)
  have e2 : fieldMatch k "refresh_token" = false := fieldMatch_exclusive h (by decide)
  have e3 : fieldMatch k "token_type" = false := fieldMatch_exclusive h (by decide)
  simp [applyKV, h, e1, e2, e3, applyIntField]

theorem foldl_access_nil (ms : List (String × Json)) :
    ∀ t, occs ms "access_token" = [] → (ms.foldl applyKV t).accessToken = t.accessToken := by
  induction ms with
  | nil => intro t _; rfl
  | cons kv ms ih =>
    intro t h
    rcases kv with ⟨k, v⟩
    rw [occs] at h
    by_cases hk : fieldMatch k "access_token" = true
    · rw [if_pos hk] at h
      exact absurd h (by simp)
    · rw [if_neg hk] at h
      rw [List.foldl_cons, ih _ h, applyKV_access_of_ne t k v hk]

theorem foldl_access_single (ms : List (String × Json)) :
    ∀ t a, occs ms "access_token" = [Json.str a] → (ms.foldl applyKV t).accessToken = a := by
  induction ms with
  | nil => intro t a h; exact absurd h (by simp [occs])
  | cons kv ms ih =>
    intro t a h
    rcases kv with ⟨k, v⟩
    rw [occs] at h
    by_cases hk : fieldMatch k "access_token" = true
    · rw [if_pos hk] at h
      obtain ⟨hv, hrest⟩ := List.cons_eq_cons.mp h
      subst hv
      rw [List.foldl_cons, foldl_access_nil ms _ hrest, applyKV_access_set _ _ _ hk]
    · rw [if_neg hk] at h
      rw [List.foldl_cons, ih _ a h]

theorem foldl_refresh_nil (ms : List (String × Json)) :
    ∀ t, occs ms "refresh_token" = [] → (ms.foldl applyKV t).refreshToken = t.refreshToken := by
  induction ms with
  | nil => intro t _; rfl
  | cons kv ms ih =>
    intro t h
    rcases kv with ⟨k, v⟩
    rw [occs] at h
    by_cases hk : fieldMatch k "refresh_token" = true
    · rw [if_pos hk] at h
      exact absurd h (by simp)
    · rw [if_neg hk] at h
      rw [List.foldl_cons, ih _ h, applyKV_refresh_of_ne t k v hk]

theorem foldl_refresh_single (ms : List (String × Json)) :
    ∀ t a, occs ms "refresh_token" = [Json.str a] → (ms.foldl applyKV t).refreshToken = a := by
  induction ms with
  | nil => intro t a h; exact absurd h (by simp [occs])
  | cons kv ms ih =>
    intro t a h
    rcases kv with ⟨k, v⟩
    rw [occs] at h
    by_cases hk : fieldMatch k "refresh_token" = true
    · rw [if_pos hk] at h
      obtain ⟨hv, hrest⟩ := List.cons_eq_cons.mp h
      subst hv
      rw [List.foldl_cons, foldl_refresh_nil ms _ hrest, applyKV_refresh_set _ _ _ hk]
    · rw [if_neg hk] at h
      rw [List.foldl_cons, ih _ a h]

theorem foldl_tokenType_nil (ms : List (String × Json)) :
    ∀ t, occs ms "token_type" = [] → (ms.foldl applyKV t).tokenType = t.tokenType := by
  induction ms with
  | nil => intro t _; rfl
  | cons kv ms ih =>
    intro t h
    rcases kv with ⟨k, v⟩
    rw [occs] at h
    by_cases hk : fieldMatch k "token_type" = true
    · rw [if_pos hk] at h
      exact absurd h (by simp)
    · rw [if_neg hk] at h
      rw [List.foldl_cons, ih _ h, applyKV_tokenType_of_ne t k v hk]

theorem foldl_tokenType_single (ms : List (String × Json)) :
    ∀ t a, occs ms "token_type" = [Json.str a] → (ms.foldl applyKV t).tokenType = a := by
  induction ms with
  | nil => intro t a h; exact absurd h (by simp [occs])
  | cons kv ms ih =>
    intro t a h
    rcases kv with ⟨k, v⟩
    rw [occs] at h
    by_cases hk : fieldMatch k "token_type" = true
    · rw [if_pos hk] at h
      obtain ⟨hv, hrest⟩ := List.cons_eq_cons.mp h
      subst hv
      rw [List.foldl_cons, foldl_tokenType_nil ms _ hrest, applyKV_tokenType_set _ _ _ hk]
    · rw [if_neg hk] at h
      rw [List.foldl_cons, ih _ a h]

theorem foldl_expires_nil (ms : List (String × Json)) :
    ∀ t, occs ms "expires_in" = [] → (ms.foldl applyKV t).expiresIn = t.expiresIn := by
  induction ms with
  | nil => intro t _; rfl
  | cons kv ms ih =>
    intro t h
    rcases kv with ⟨k, v⟩
    rw [occs] at h
    by_cases hk : fieldMatch k "expires_in" = true
    · rw [if_pos hk] at h
      exact absurd h (by simp)
    · rw [if_neg hk] at h
      rw [List.foldl_cons, ih _ h, applyKV_expires_of_ne t k v hk]

theorem foldl_expires_single (ms : List (String × Json)) :
    ∀ t n, occs ms "expires_in" = [Json.num n] → (ms.foldl applyKV t).expiresIn = n := by
  induction ms with
  | nil => intro t n h; exact absurd h (by simp [occs])
  | cons kv ms ih =>
    intro t n h
    rcases kv with ⟨k, v⟩
    rw [occs] at h
    by_cases hk : fieldMatch k "expires_in" = true
    · rw [if_pos hk] at h
      obtain ⟨hv, hrest⟩ := List.cons_eq_cons.mp h
      subst hv
      rw [List.foldl_cons, foldl_expires_nil ms _ hrest, applyKV_expires_set _ _ _ hk]
    · rw [if_neg hk] at h
      rw [List.foldl_cons, ih _ n h]

theorem mem_occs (ms : List (String × Json)) (k : String) (v : Json) (f : String)
    (hm : (k, v) ∈ ms) (hf : fieldMatch k f = true) : v ∈ occs ms f := by
  induction ms with
  | nil => exact absurd hm (by simp)
  | cons kv ms ih =>
    rcases kv with ⟨k', v'⟩
    rcases List.mem_cons.mp hm with h1 | h1
    · injection h1 with h1a h1b
      subst h1a
      subst h1b
      rw [occs, if_pos hf]
      exact List.mem_cons_self _ _
    · rw [occs]
      split_ifs with hk
      · exact List.mem_cons_of_mem _ (ih h1)
      · exact ih h1

theorem decode_tokenJson (t : TokenResponse) (h1 : int64Min ≤ t.expiresIn)
    (h2 : t.expiresIn ≤ int64Max) : decodeTokenResponse (tokenJson t) = Except.ok t := by
  have hall : ∀ kv ∈ [("access_token", Json.str t.accessToken),
      ("refresh_token", Json.str t.refreshToken), ("token_type", Json.str t.tokenType),
      ("expires_in", Json.num t.expiresIn), ("id_token", Json.str t.idToken)],
      kvOk kv = true := by
    intro kv hkv
    simp only [List.mem_cons, List.not_mem_nil, or_false] at hkv
    rcases hkv with h | h | h | h | h <;> subst h
    · rfl
    · rfl
    · rfl
    · exact decide_eq_true ⟨h1, h2⟩
    · rfl
  simp only [decodeTokenResponse, tokenJson, decodeMembers_of_all _ _ hall]
  rfl

theorem setField_range (t t' : TokenResponse) (k : String) (v : Json)
    (h : setField t k v = Except.ok t')
    (hr : int64Min ≤ t.expiresIn ∧ t.expiresIn ≤ int64Max) :
    int64Min ≤ t'.expiresIn ∧ t'.expiresIn ≤ int64Max := by
  rw [setField] at h
  split_ifs at h with h1 h2 h3 h4 h5
  · cases v <;> simp_all [decodeStringField, Except.map] <;> (subst h; exact hr)
  · cases v <;> simp_all [decodeStringField, Except.map] <;> (subst h; exact hr)
  · cases v <;> simp_all [decodeStringField, Except.map] <;> (subst h; exact hr)
  · cases v with
    | num n =>
      simp only [decodeIntField, Except.map] at h
      split_ifs at h with h6
      simp only [Except.ok.injEq] at h
      subst h
      exact h6
    | null =>
      simp only [decodeIntField, Except.map, Except.ok.injEq] at h
      subst h
      exact hr
    | bool b => simp_all [decodeIntField, Except.map]
    | str s => simp_all [decodeIntField, Except.map]
    | numNonInt => simp_all [decodeIntField, Except.map]
    | arr el => simp_all [decodeIntField, Except.map]
    | obj ms => simp_all [decodeIntField, Except.map]
  · cases v <;> simp_all [decodeStringField, Except.map] <;> (subst h; exact hr)
  · simp only [Except.ok.injEq] at h
    subst h
    exact hr

theorem decodeMembers_range (ms : List (String × Json)) :
    ∀ t t', decodeMembers t ms = Except.ok t' →
      (int64Min ≤ t.expiresIn ∧ t.expiresIn ≤ int64Max) →
      int64Min ≤ t'.expiresIn ∧ t'.expiresIn ≤ int64Max := by
  induction ms with
  | nil =>
    intro t t' h hr
    simp only [decodeMembers, Except.ok.injEq] at h
    subst h
    exact hr
  | cons kv ms ih =>
    intro t t' h hr
    rcases kv with ⟨k, v⟩
    rw [decodeMembers] at h
    cases hsf : setField t k v with
    | error e =>
      simp only [hsf] at h
      exact Except.noConfusion h
    | ok t1 =>
      simp only [hsf] at h
      exact ih t1 t' h (setField_range t t1 k v hsf hr)

theorem decodeTokenResponse_range (j : Json) (t : TokenResponse)
    (h : decodeTokenResponse j = Except.ok t) :
    int64Min ≤ t.expiresIn ∧ t.expiresIn ≤ int64Max := by
  cases j with
  | obj ms =>
    simp only [decodeTokenResponse] at h
    exact decodeMembers_range ms zeroTokenResponse t h ⟨by decide, by decide⟩
  | null =>
    simp only [decodeTokenResponse, Except.ok.injEq] at h
    subst h
    exact ⟨by decide, by decide⟩
  | bool b => simp [decodeTokenResponse] at h
  | num n => simp [decodeTokenResponse] at h
  | numNonInt => simp [decodeTokenResponse] at h
  | str s => simp [decodeTokenResponse] at h
  | arr el => simp [decodeTokenResponse] at h

theorem modifier_eval (body : String) (j : Json) (t : TokenResponse)
    (hp : parseJson body = some j) (hd : decodeTokenResponse j = Except.ok t) :
    accessTokenToIdTokenResponseBodyModifier body =
      Except.ok (marshalTokenResponse { t with idToken := t.accessToken }) := by
  simp only [accessTokenToIdTokenResponseBodyModifier, hp, hd]

theorem modifier_ok_shape (body out : String)
    (h : accessTokenToIdTokenResponseBodyModifier body = Except.ok out) :
    ∃ j t, parseJson body = some j ∧ decodeTokenResponse j = Except.ok t ∧
      out = marshalTokenResponse { t with idToken := t.accessToken } := by
  rw [accessTokenToIdTokenResponseBodyModifier] at h
  cases hp : parseJson body with
  | none =>
    simp only [hp] at h
    exact Except.noConfusion h
  | some j =>
    simp only [hp] at h
    cases hd : decodeTokenResponse j with
    | error e =>
      simp only [hd] at h
      exact Except.noConfusion h
    | ok t =>
      simp only [hd, Except.ok.injEq] at h
      exact ⟨j, t, rfl, hd, h.symm⟩

theorem TokenResponse.fieldExt (x y : TokenResponse) (h1 : x.accessToken = y.accessToken)
    (h2 : x.refreshToken = y.refreshToken) (h3 : x.tokenType = y.tokenType)
    (h4 : x.expiresIn = y.expiresIn) (h5 : x.idToken = y.idToken) : x = y := by
  cases x
  cases y
  simp_all

/-- Claim C1: the spec says a non-2xx backend response is relayed with the
backend's status code and body byte-identical and the transformer never
invoked.  The code relays the body verbatim and never invokes the
transformer, but it writes the body with `w.Write` without ever calling
`WriteHeader`, so the status sent to the caller is 200, not the backend's
status.  This theorem evaluates the handler at a failing input: the
backend answers 401 with `{"error":"invalid_grant"}`, and the caller
receives status 200 (with that body relayed unmodified and no
`Content-Type` set by the handler). -/
theorem claim1_non2xx_relay_eval :
    proxyingPostHandlerWithResponseModifier "http://backend.example/token"
        (some accessTokenToIdTokenResponseBodyModifier) false
        { method := "POST",
          headers := [("Content-Type", ["application/x-www-form-urlencoded"])],
          readBody := some "grant_type=client_credentials" }
        { newRequestOk := true,
          outcome := BackendOutcome.ok
            { statusCode := 401, statusText := "401 Unauthorized",
              contentType := "application/json",
              body := "\x7b\"error\":\"invalid_grant\"\x7d" } } =
      { backendRequest := some
          { method := "POST", url := "http://backend.example/token",
            headers := [("Content-Type", ["application/x-www-form-urlencoded"])],
            body := "grant_type=client_credentials" },
        written := { statusCode := 200, contentType := none,
                     body := "\x7b\"error\":\"invalid_grant\"\x7d" } } := rfl

/-- Claim C4: a non-POST inbound request is answered immediately with
HTTP 405 and the fixed error-message body, and no backend request is
ever constructed or sent. -/
theorem claim4_non_post_405 (backendUrl : String)
    (mod : Option (String → Except String String)) (debug : Bool)
    (r : InboundRequest) (env : Env) (h : ¬(r.method = "POST")) :
    proxyingPostHandlerWithResponseModifier backendUrl mod debug r env =
      { backendRequest := none,
        written := { statusCode := 405, contentType := some "text/plain; charset=utf-8",
                     body := "(proxyingPostHandlerWithResponseModifier) Invalid request method\n" } } := by
  rw [proxyingPostHandlerWithResponseModifier, if_neg h]
  rfl

/-- Witness for C4 at a concrete GET request. -/
theorem claim4_witness :
    proxyingPostHandlerWithResponseModifier "http://backend.example/token" none false
        { method := "GET", headers := [], readBody := some "" }
        { newRequestOk := true, outcome := BackendOutcome.doError "unused" } =
      { backendRequest := none,
        written := { statusCode := 405, contentType := some "text/plain; charset=utf-8",
                     body := "(proxyingPostHandlerWithResponseModifier) Invalid request method\n" } } :=
  claim4_non_post_405 "http://backend.example/token" none false
    { method := "GET", headers := [], readBody := some "" }
    { newRequestOk := true, outcome := BackendOutcome.doError "unused" } (by decide)

/-- Claim C5: when the backend answers with a 2xx status but the
configured transformer rejects the body, the caller receives HTTP 500
with the diagnostic message as the entire body: the backend's success
status is discarded and no other bytes are written. -/
theorem claim5_transformer_failure_500 (backendUrl : String)
    (m : String → Except String String) (debug : Bool) (r : InboundRequest) (env : Env)
    (b : String) (resp : BackendResponse) (e : String)
    (hm : r.method = "POST") (hb : r.readBody = some b) (hok : env.newRequestOk = true)
    (ho : env.outcome = BackendOutcome.ok resp)
    (h2 : 200 ≤ resp.statusCode) (h3 : resp.statusCode < 300)
    (hfail : m resp.body = Except.error e) :
    (proxyingPostHandlerWithResponseModifier backendUrl (some m) debug r env).written =
      { statusCode := 500, contentType := some "text/plain; charset=utf-8",
        body := "Error processing request body modifier: " ++ e ++ "\n" } := by
  have hcond : ¬(resp.statusCode ≥ 300 ∨ resp.statusCode < 200) := by omega
  simp [proxyingPostHandlerWithResponseModifier, if_pos hm, hb, hok, ho, hcond, hfail,
    httpError]

/-- Witness for C5: a 200 backend response whose body is not JSON makes
the access-token transformer fail and the handler answer 500. -/
theorem claim5_witness :
    (proxyingPostHandlerWithResponseModifier "http://backend.example/token"
        (some accessTokenToIdTokenResponseBodyModifier) false
        { method := "POST", headers := [], readBody := some "x=y" }
        { newRequestOk := true,
          outcome := BackendOutcome.ok
            { statusCode := 200, statusText := "200 OK", contentType := "text/plain",
              body := "not json" } }).written =
      { statusCode := 500, contentType := some "text/plain; charset=utf-8",
        body := "Error processing request body modifier: " ++ "invalid JSON" ++ "\n" } :=
  claim5_transformer_failure_500 "http://backend.example/token"
    accessTokenToIdTokenResponseBodyModifier false
    { method := "POST", headers := [], readBody := some "x=y" }
    { newRequestOk := true,
      outcome := BackendOutcome.ok
        { statusCode := 200, statusText := "200 OK", contentType := "text/plain",
          body := "not json" } }
    "x=y"
    { statusCode := 200, statusText := "200 OK", contentType := "text/plain",
      body := "not json" }
    "invalid JSON" rfl rfl rfl rfl (by decide) (by decide) rfl

/-- Claim C6: on the route bound without a transformer, whatever status
the backend returns, the body written to the caller is byte-identical to
the backend's raw body. -/
theorem claim6_no_transformer_body_identity (backendUrl : String) (debug : Bool)
    (r : InboundRequest) (env : Env) (b : String) (resp : BackendResponse)
    (hm : r.method = "POST") (hb : r.readBody = some b) (hok : env.newRequestOk = true)
    (ho : env.outcome = BackendOutcome.ok resp) :
    (proxyingPostHandlerWithResponseModifier backendUrl none debug r env).written.body =
      resp.body := by
  by_cases hs : resp.statusCode ≥ 300 ∨ resp.statusCode < 200 <;>
    simp [proxyingPostHandlerWithResponseModifier, if_pos hm, hb, hok, ho, hs, httpError]

/-- Witness for C6 at a concrete 404 backend response. -/
theorem claim6_witness :
    (proxyingPostHandlerWithResponseModifier "http://backend.example/introspection" none false
        { method := "POST", headers := [], readBody := some "token=abc" }
        { newRequestOk := true,
          outcome := BackendOutcome.ok
            { statusCode := 404, statusText := "404 Not Found", contentType := "text/html",
              body := "backend route missing" } }).written.body = "backend route missing" :=
  claim6_no_transformer_body_identity "http://backend.example/introspection" false
    { method := "POST", headers := [], readBody := some "token=abc" }
    { newRequestOk := true,
      outcome := BackendOutcome.ok
        { statusCode := 404, statusText := "404 Not Found", contentType := "text/html",
          body := "backend route missing" } }
    "token=abc"
    { statusCode := 404, statusText := "404 Not Found", contentType := "text/html",
      body := "backend route missing" } rfl rfl rfl rfl

/-- Claim C8: whenever a 2xx backend response reaches the final response
emission step (no transformer, or the transformer succeeded), the handler
sets the caller-facing `Content-Type` header to exactly the backend's
`Content-Type` value, even when that value is empty. -/
theorem claim8_content_type_copied (backendUrl : String)
    (mod : Option (String → Except String String)) (debug : Bool) (r : InboundRequest)
    (env : Env) (b : String) (resp : BackendResponse)
    (hm : r.method = "POST") (hb : r.readBody = some b) (hok : env.newRequestOk = true)
    (ho : env.outcome = BackendOutcome.ok resp)
    (h2 : 200 ≤ resp.statusCode) (h3 : resp.statusCode < 300)
    (hmod : mod = none ∨ ∃ m rb, mod = some m ∧ m resp.body = Except.ok rb) :
    (proxyingPostHandlerWithResponseModifier backendUrl mod debug r env).written.contentType =
      some resp.contentType := by
  have hcond : ¬(resp.statusCode ≥ 300 ∨ resp.statusCode < 200) := by omega
  rcases hmod with hnone | ⟨m, rb, hsome, hok2⟩
  · subst hnone
    simp [proxyingPostHandlerWithResponseModifier, if_pos hm, hb, hok, ho, hcond]
  · subst hsome
    simp [proxyingPostHandlerWithResponseModifier, if_pos hm, hb, hok, ho, hcond, hok2]

/-- Witness for C8: the backend's empty `Content-Type` is copied verbatim. -/
theorem claim8_witness :
    (proxyingPostHandlerWithResponseModifier "http://backend.example/introspection" none false
        { method := "POST", headers := [], readBody := some "token=abc" }
        { newRequestOk := true,
          outcome := BackendOutcome.ok
            { statusCode := 200, statusText := "200 OK", contentType := "",
              body := "null" } }).written.contentType = some "" :=
  claim8_content_type_copied "http://backend.example/introspection" none false
    { method := "POST", headers := [], readBody := some "token=abc" }
    { newRequestOk := true,
      outcome := BackendOutcome.ok
        { statusCode := 200, statusText := "200 OK", contentType := "", body := "null" } }
    "token=abc"
    { statusCode := 200, statusText := "200 OK", contentType := "", body := "null" }
    rfl rfl rfl rfl (by decide) (by decide) (Or.inl rfl)

/-- Claim C9: on a POST request whose backend response is 2xx with a body
that unmarshals as a `TokenResponse`, the original `postTokenHandler` and
the generalized handler bound to the access-token transformer write
identical responses: same status, same `Content-Type`, same body bytes. -/
theorem claim9_handlers_equivalent (url : String) (debug : Bool) (r : InboundRequest)
    (env : Env) (b : String) (resp : BackendResponse) (j : Json) (t : TokenResponse)
    (hm : r.method = "POST") (hb : r.readBody = some b) (hok : env.newRequestOk = true)
    (ho : env.outcome = BackendOutcome.ok resp)
    (h2 : 200 ≤ resp.statusCode) (h3 : resp.statusCode < 300)
    (hp : parseJson resp.body = some j) (hd : decodeTokenResponse j = Except.ok t) :
    (proxyingPostHandlerWithResponseModifier url
        (some accessTokenToIdTokenResponseBodyModifier) debug r env).written =
      (postTokenHandler url debug r env).written := by
  have hcond : ¬(resp.statusCode ≥ 300 ∨ resp.statusCode < 200) := by omega
  have hmod := modifier_eval resp.body j t hp hd
  simp only [proxyingPostHandlerWithResponseModifier, postTokenHandler, if_pos hm, hb,
    if_pos hok, ho, if_neg hcond, hmod, hp, hd]

/-- Witness for C9 at the spec's example token response. -/
theorem claim9_witness :
    (proxyingPostHandlerWithResponseModifier "http://backend.example/token"
        (some accessTokenToIdTokenResponseBodyModifier) false
        { method := "POST", headers := [], readBody := some "grant_type=password" }
        { newRequestOk := true,
          outcome := BackendOutcome.ok
            { statusCode := 200, statusText := "200 OK", contentType := "application/json",
              body := "\x7b\"access_token\":\"tok1\",\"token_type\":\"Bearer\",\"expires_in\":3600\x7d" } }).written =
      (postTokenHandler "http://backend.example/token" false
        { method := "POST", headers := [], readBody := some "grant_type=password" }
        { newRequestOk := true,
          outcome := BackendOutcome.ok
            { statusCode := 200, statusText := "200 OK", contentType := "application/json",
              body := "\x7b\"access_token\":\"tok1\",\"token_type\":\"Bearer\",\"expires_in\":3600\x7d" } }).written :=
  claim9_handlers_equivalent "http://backend.example/token" false
    { method := "POST", headers := [], readBody := some "grant_type=password" }
    { newRequestOk := true,
      outcome := BackendOutcome.ok
        { statusCode := 200, statusText := "200 OK", contentType := "application/json",
          body := "\x7b\"access_token\":\"tok1\",\"token_type\":\"Bearer\",\"expires_in\":3600\x7d" } }
    "grant_type=password"
    { statusCode := 200, statusText := "200 OK", contentType := "application/json",
      body := "\x7b\"access_token\":\"tok1\",\"token_type\":\"Bearer\",\"expires_in\":3600\x7d" }
    (Json.obj [("access_token", Json.str "tok1"), ("token_type", Json.str "Bearer"),
      ("expires_in", Json.num 3600)])
    { accessToken := "tok1", refreshToken := "", tokenType := "Bearer", expiresIn := 3600,
      idToken := "" }
    rfl rfl rfl rfl (by decide) (by decide) rfl rfl

/-- Claim C3: whenever the handler sends a backend request, that request
carries the inbound request's entire header set, unmodified (the source
assigns `backendReq.Header = r.Header` wholesale), along with method POST,
the configured URL and the captured body. -/
theorem claim3_headers_forwarded (backendUrl : String)
    (mod : Option (String → Except String String)) (debug : Bool)
    (r : InboundRequest) (env : Env) (obr : OutboundRequest)
    (h : (proxyingPostHandlerWithResponseModifier backendUrl mod debug r env).backendRequest =
      some obr) :
    obr.headers = r.headers ∧ obr.method = "POST" ∧ obr.url = backendUrl ∧
      r.readBody = some obr.body := by
  by_cases hm : r.method = "POST"
  · cases hb : r.readBody with
    | none =>
      simp only [proxyingPostHandlerWithResponseModifier, if_pos hm, hb] at h
      exact Option.noConfusion h
    | some body =>
      by_cases hok : env.newRequestOk
      · cases ho : env.outcome with
        | doError msg =>
          simp only [proxyingPostHandlerWithResponseModifier, if_pos hm, hb, if_pos hok, ho,
            Option.some.injEq] at h
          subst h
          exact ⟨rfl, rfl, rfl, rfl⟩
        | readError code st msg =>
          simp only [proxyingPostHandlerWithResponseModifier, if_pos hm, hb, if_pos hok, ho,
            Option.some.injEq] at h
          subst h
          exact ⟨rfl, rfl, rfl, rfl⟩
        | ok resp =>
          by_cases hs : resp.statusCode ≥ 300 ∨ resp.statusCode < 200
          · simp only [proxyingPostHandlerWithResponseModifier, if_pos hm, hb, if_pos hok, ho,
              if_pos hs, Option.some.injEq] at h
            subst h
            exact ⟨rfl, rfl, rfl, rfl⟩
          · cases mod with
            | none =>
              simp only [proxyingPostHandlerWithResponseModifier, if_pos hm, hb, if_pos hok,
                ho, if_neg hs, Option.some.injEq] at h
              subst h
              exact ⟨rfl, rfl, rfl, rfl⟩
            | some m =>
              cases hmr : m resp.body with
              | error e =>
                simp only [proxyingPostHandlerWithResponseModifier, if_pos hm, hb, if_pos hok,
                  ho, if_neg hs, hmr, Option.some.injEq] at h
                subst h
                exact ⟨rfl, rfl, rfl, rfl⟩
              | ok rb =>
                simp only [proxyingPostHandlerWithResponseModifier, if_pos hm, hb, if_pos hok,
                  ho, if_neg hs, hmr, Option.some.injEq] at h
                subst h
                exact ⟨rfl, rfl, rfl, rfl⟩
      · simp only [proxyingPostHandlerWithResponseModifier, if_pos hm, hb, if_neg hok] at h
        exact Option.noConfusion h
  · simp only [proxyingPostHandlerWithResponseModifier, if_neg hm] at h
    exact Option.noConfusion h

/-- Witness for C3: a concrete POST with an `Authorization` header is
forwarded with exactly that header set. -/
theorem claim3_witness :
    ({ method := "POST", url := "http://backend.example/token",
       headers := [("Authorization", ["Bearer xyz"]), ("Content-Length", ["9"])],
       body := "token=abc" } : OutboundRequest).headers =
        [("Authorization", ["Bearer xyz"]), ("Content-Length", ["9"])] ∧
      ({ method := "POST", url := "http://backend.example/token",
         headers := [("Authorization", ["Bearer xyz"]), ("Content-Length", ["9"])],
         body := "token=abc" } : OutboundRequest).method = "POST" ∧
      ({ method := "POST", url := "http://backend.example/token",
         headers := [("Authorization", ["Bearer xyz"]), ("Content-Length", ["9"])],
         body := "token=abc" } : OutboundRequest).url = "http://backend.example/token" ∧
      ({ method := "POST",
         headers := [("Authorization", ["Bearer xyz"]), ("Content-Length", ["9"])],
         readBody := some "token=abc" } : InboundRequest).readBody =
        some "token=abc" :=
  claim3_headers_forwarded "http://backend.example/token" none false
    { method := "POST",
      headers := [("Authorization", ["Bearer xyz"]), ("Content-Length", ["9"])],
      readBody := some "token=abc" }
    { newRequestOk := true,
      outcome := BackendOutcome.ok
        { statusCode := 200, statusText := "200 OK", contentType := "application/json",
          body := "null" } }
    { method := "POST", url := "http://backend.example/token",
      headers := [("Authorization", ["Bearer xyz"]), ("Content-Length", ["9"])],
      body := "token=abc" } rfl

/-- Claim C2 counterexample: a body that is a JSON object with string
fields access_token = "A", refresh_token = "R", token_type = "T" and
integer field expires_in = 1 — but whose additional id_token member is a
number — makes the transformer fail (Go's `json.Unmarshal` reports a type
error for the id_token field), so the claim as stated (the transformer
succeeds on every such object) is false. -/
theorem claim2_counterexample :
    parseJson "\x7b\"access_token\":\"A\",\"refresh_token\":\"R\",\"token_type\":\"T\",\"expires_in\":1,\"id_token\":5\x7d" =
        some (Json.obj [("access_token", Json.str "A"), ("refresh_token", Json.str "R"),
          ("token_type", Json.str "T"), ("expires_in", Json.num 1),
          ("id_token", Json.num 5)]) ∧
      accessTokenToIdTokenResponseBodyModifier
        "\x7b\"access_token\":\"A\",\"refresh_token\":\"R\",\"token_type\":\"T\",\"expires_in\":1,\"id_token\":5\x7d" =
        Except.error "json: cannot unmarshal value into field id_token of type string" :=
  ⟨rfl, rfl⟩

/-- Claim C2 (amended): for every body that parses as a JSON object in
which exactly one member selects the access_token field (member names
select fields case-insensitively, as Go's `json.Unmarshal` matches them)
and its value is a string A, likewise refresh_token with R and token_type
with T, exactly one member selects expires_in with an integer value E
that fits in a signed 64-bit int, and every member selecting id_token (if
any) is a string or null, the transformer succeeds and returns the
serialization of `{access_token: A, refresh_token: R, token_type: T,
expires_in: E, id_token: A}` — the id_token of the output always equals
A, even when A is the empty string. -/
theorem claim2_amended_transformer_output (body : String) (ms : List (String × Json))
    (a r tt : String) (e : Int)
    (hp : parseJson body = some (Json.obj ms))
    (hA : occs ms "access_token" = [Json.str a])
    (hR : occs ms "refresh_token" = [Json.str r])
    (hT : occs ms "token_type" = [Json.str tt])
    (hE : occs ms "expires_in" = [Json.num e])
    (hI : ∀ v ∈ occs ms "id_token", (∃ s, v = Json.str s) ∨ v = Json.null)
    (hlo : int64Min ≤ e) (hhi : e ≤ int64Max) :
    accessTokenToIdTokenResponseBodyModifier body =
      Except.ok (marshalTokenResponse
        { accessToken := a, refreshToken := r, tokenType := tt, expiresIn := e,
          idToken := a }) := by
  have hall : ∀ kv ∈ ms, kvOk kv = true := by
    intro kv hkv
    rcases kv with ⟨k, v⟩
    by_cases h1 : fieldMatch k "access_token" = true
    · have hvocc := mem_occs ms k v "access_token" hkv h1
      rw [hA] at hvocc
      simp only [List.mem_singleton] at hvocc
      subst hvocc
      have he : kvOk (k, Json.str a) = strTypeOk (Json.str a) := by simp [kvOk, h1]
      rw [he]
      rfl
    by_cases h2 : fieldMatch k "refresh_token" = true
    · have hvocc := mem_occs ms k v "refresh_token" hkv h2
      rw [hR] at hvocc
      simp only [List.mem_singleton] at hvocc
      subst hvocc
      have he : kvOk (k, Json.str r) = strTypeOk (Json.str r) := by simp [kvOk, h2]
      rw [he]
      rfl
    by_cases h3 : fieldMatch k "token_type" = true
    · have hvocc := mem_occs ms k v "token_type" hkv h3
      rw [hT] at hvocc
      simp only [List.mem_singleton] at hvocc
      subst hvocc
      have he : kvOk (k, Json.str tt) = strTypeOk (Json.str tt) := by simp [kvOk, h3]
      rw [he]
      rfl
    by_cases h4 : fieldMatch k "expires_in" = true
    · have hid : fieldMatch k "id_token" = false := fieldMatch_exclusive h4 (by decide)
      have hvocc := mem_occs ms k v "expires_in" hkv h4
      rw [hE] at hvocc
      simp only [List.mem_singleton] at hvocc
      subst hvocc
      have he : kvOk (k, Json.num e) = intTypeOk (Json.num e) := by
        simp [kvOk, h1, h2, h3, h4, hid]
      rw [he]
      exact decide_eq_true ⟨hlo, hhi⟩
    by_cases h5 : fieldMatch k "id_token" = true
    · have hvocc := mem_occs ms k v "id_token" hkv h5
      have he : kvOk (k, v) = strTypeOk v := by simp [kvOk, h5]
      rw [he]
      rcases hI v hvocc with ⟨s, hs⟩ | hn
      · subst hs
        rfl
      · subst hn
        rfl
    · simp [kvOk, h1, h2, h3, h4, h5]
  have hdec : decodeTokenResponse (Json.obj ms) =
      Except.ok (ms.foldl applyKV zeroTokenResponse) := by
    simp only [decodeTokenResponse, decodeMembers_of_all ms zeroTokenResponse hall]
  have hmod := modifier_eval body (Json.obj ms) _ hp hdec
  rw [hmod]
  exact congrArg (fun s => Except.ok (marshalTokenResponse s))
    (TokenResponse.fieldExt _ _ (foldl_access_single ms zeroTokenResponse a hA)
      (foldl_refresh_single ms zeroTokenResponse r hR)
      (foldl_tokenType_single ms zeroTokenResponse tt hT)
      (foldl_expires_single ms zeroTokenResponse e hE)
      (foldl_access_single ms zeroTokenResponse a hA))

/-- Witness for amended C2: a four-field object with an extra unknown
member transforms into the five-field record mirroring the access token. -/
theorem claim2_witness :
    accessTokenToIdTokenResponseBodyModifier
        "\x7b\"access_token\":\"a\",\"refresh_token\":\"b\",\"token_type\":\"c\",\"expires_in\":12,\"other\":true\x7d" =
      Except.ok (marshalTokenResponse
        { accessToken := "a", refreshToken := "b", tokenType := "c", expiresIn := 12,
          idToken := "a" }) :=
  claim2_amended_transformer_output
    "\x7b\"access_token\":\"a\",\"refresh_token\":\"b\",\"token_type\":\"c\",\"expires_in\":12,\"other\":true\x7d"
    [("access_token", Json.str "a"), ("refresh_token", Json.str "b"),
      ("token_type", Json.str "c"), ("expires_in", Json.num 12), ("other", Json.bool true)]
    "a" "b" "c" 12 rfl rfl rfl rfl rfl (fun v hv => absurd hv (List.not_mem_nil v))
    (by decide) (by decide)

/-- Claim C7: whenever the transformer accepts a body, its output
serializes exactly the record parsed from the input with only the
id_token field overwritten by the access token; re-parsing the output
shows that its members are exactly the five named fields (any other
members of the input are absent from the output). -/
theorem claim7_frame_preservation (body : String) (j : Json) (t : TokenResponse)
    (hp : parseJson body = some j) (hd : decodeTokenResponse j = Except.ok t) :
    accessTokenToIdTokenResponseBodyModifier body =
        Except.ok (marshalTokenResponse { t with idToken := t.accessToken }) ∧
      parseJson (marshalTokenResponse { t with idToken := t.accessToken }) =
        some (Json.obj [("access_token", Json.str t.accessToken),
          ("refresh_token", Json.str t.refreshToken),
          ("token_type", Json.str t.tokenType),
          ("expires_in", Json.num t.expiresIn),
          ("id_token", Json.str t.accessToken)]) :=
  ⟨modifier_eval body j t hp hd, parseJson_marshal { t with idToken := t.accessToken }⟩

/-- Witness for C7 at a concrete body with an extra member, showing the
extra member is gone from the re-parsed output. -/
theorem claim7_witness :
    accessTokenToIdTokenResponseBodyModifier
          "\x7b\"access_token\":\"tok\",\"scope\":\"openid\"\x7d" =
        Except.ok (marshalTokenResponse
          { accessToken := "tok", refreshToken := "", tokenType := "", expiresIn := 0,
            idToken := "tok" }) ∧
      parseJson (marshalTokenResponse
          { accessToken := "tok", refreshToken := "", tokenType := "", expiresIn := 0,
            idToken := "tok" }) =
        some (Json.obj [("access_token", Json.str "tok"), ("refresh_token", Json.str ""),
          ("token_type", Json.str ""), ("expires_in", Json.num 0),
          ("id_token", Json.str "tok")]) :=
  claim7_frame_preservation "\x7b\"access_token\":\"tok\",\"scope\":\"openid\"\x7d"
    (Json.obj [("access_token", Json.str "tok"), ("scope", Json.str "openid")])
    { accessToken := "tok", refreshToken := "", tokenType := "", expiresIn := 0,
      idToken := "" } rfl rfl

/-- Claim C10: the transformer is idempotent — if it accepts a body,
applying it to its own output succeeds and returns the same bytes. -/
theorem claim10_idempotent (body out : String)
    (h : accessTokenToIdTokenResponseBodyModifier body = Except.ok out) :
    accessTokenToIdTokenResponseBodyModifier out = Except.ok out := by
  obtain ⟨j, t, hp, hd, hout⟩ := modifier_ok_shape body out h
  obtain ⟨hr1, hr2⟩ := decodeTokenResponse_range j t hd
  subst hout
  have hp2 := parseJson_marshal { t with idToken := t.accessToken }
  have hd2 := decode_tokenJson { t with idToken := t.accessToken } hr1 hr2
  exact modifier_eval (marshalTokenResponse { t with idToken := t.accessToken })
    (tokenJson { t with idToken := t.accessToken })
    { t with idToken := t.accessToken } hp2 hd2

/-- Witness for C10 at a concrete body. -/
theorem claim10_witness :
    accessTokenToIdTokenResponseBodyModifier
        "\x7b\"access_token\":\"x\",\"refresh_token\":\"\",\"token_type\":\"\",\"expires_in\":5,\"id_token\":\"x\"\x7d" =
      Except.ok
        "\x7b\"access_token\":\"x\",\"refresh_token\":\"\",\"token_type\":\"\",\"expires_in\":5,\"id_token\":\"x\"\x7d" :=
  claim10_idempotent "\x7b\"access_token\":\"x\",\"expires_in\":5\x7d"
    "\x7b\"access_token\":\"x\",\"refresh_token\":\"\",\"token_type\":\"\",\"expires_in\":5,\"id_token\":\"x\"\x7d"
    rfl

end OidcProxy
